import Mathlib

/-!
Verification of the GameSave-Manager core (src/main.js `BackupManager`,
src/utils/configManager.js `SaveMonitor`) against its specification.

The JavaScript code is embedded shallowly: every value the code reads from
the filesystem or from the clock is passed to the Lean function as an
explicit argument, and the on-disk state a function mutates (the `backups`
array persisted in `metadata.json`, the set of archive files, the content of
the restore target) is threaded as explicit state.  The MD5 digest computed
by the external node `crypto` module is represented by the hex string it
returns, passed in as a value.
-/

namespace GameSave

/-- One entry of the persisted ledger (the `backups` array of
`metadata.json`), field for field the object built in
`BackupManager.createBackup`.  The ISO8601 `timestamp` string is represented
by the `Nat` it denotes (milliseconds since the epoch, the value
`new Date(...)` compares by). -/
structure BackupRecord where
  id : String
  originalFileName : String
  backupFileName : String
  timestamp : Nat
  size : Nat
  hash : String
  originalPath : String
  screenshot : Option String
deriving DecidableEq, Repr

/-- The order used by the comparator `(a, b) => new Date(b.timestamp) -
new Date(a.timestamp)`: record `a` sorts before `b` when `a` is at least as
new. -/
def newerFirst (a b : BackupRecord) : Prop := b.timestamp ≤ a.timestamp

instance : DecidableRel newerFirst := fun a b =>
  inferInstanceAs (Decidable (b.timestamp ≤ a.timestamp))

instance : IsTotal BackupRecord newerFirst :=
  ⟨fun a b => Nat.le_total b.timestamp a.timestamp⟩

instance : IsTrans BackupRecord newerFirst :=
  ⟨fun _ _ _ hab hbc => Nat.le_trans hbc hab⟩

/-- The on-disk state a `BackupManager` owns: the ledger persisted in
`metadata.json`, and the set of names of archive files that currently exist
in the backup directory. -/
structure StoreState where
  ledger : List BackupRecord
  files : Finset String
deriving DecidableEq

/-- `path.basename`: the part of the path after the final slash, computed
structurally over the character list so that it evaluates inside the
kernel. -/
def baseName (p : String) : String :=
  ⟨(p.data.reverse.takeWhile (fun c => c ≠ '/')).reverse⟩

/-- `BackupManager.cleanupOldBackups(metadata)`.  When the ledger does not
exceed `maxBackups` it returns immediately.  Otherwise it sorts the array
descending by timestamp (the stable JavaScript `Array.prototype.sort`,
modelled by the stable `List.insertionSort`), keeps `slice(0, maxBackups)`,
deletes the archive file of every record of `slice(maxBackups)` (the
`removeSync` is guarded by `existsSync` and a `try`, so removing an absent
file is a no-op), and replaces the array with the kept prefix. -/
def cleanupOldBackups (maxBackups : Nat) (backups : List BackupRecord)
    (files : Finset String) : List BackupRecord × Finset String :=
  if backups.length ≤ maxBackups then (backups, files)
  else
    let sorted := List.insertionSort newerFirst backups
    let backupsToDelete := sorted.drop maxBackups
    let backupsToKeep := sorted.take maxBackups
    (backupsToKeep,
      backupsToDelete.foldl (fun fs b => fs.erase b.backupFileName) files)

/-- `BackupManager.createBackup(sourceFilePath)`.

Values the function reads from the world are explicit arguments:
`sourceExists` is `fs.existsSync(sourceFilePath)`, `sourceSize` is
`fs.statSync(sourceFilePath).size`, `fileHash` is the MD5 hex digest
`calculateFileHash` obtains from the external `crypto` module, `backupId` is
the fresh id from `generateBackupId()`, and `timestamp` is the capture time.
`copyFails = true` models `fs.copy` throwing before writing anything; the
surrounding `try` then returns `null` with the store untouched.

Otherwise the function copies the source to `backupId ++ "_" ++ basename`,
reads the ledger, flags the capture as a duplicate when its digest equals
the `hash` of the last element of the `backups` array, pushes the new
record, runs `cleanupOldBackups`, persists the ledger, and finally — only
for a duplicate — removes the archive file it just wrote. -/
def createBackup (maxBackups : Nat) (st : StoreState) (sourceFilePath : String)
    (sourceExists : Bool) (sourceSize : Nat) (fileHash : String)
    (backupId : String) (timestamp : Nat) (copyFails : Bool) :
    Option BackupRecord × StoreState :=
  if sourceExists = false then (none, st)
  else if copyFails = true then (none, st)
  else
    let fileName := baseName sourceFilePath
    let backupFileName := backupId ++ "_" ++ fileName
    let files1 := insert backupFileName st.files
    let isDuplicate :=
      match st.ledger.getLast? with
      | some lastBackup => lastBackup.hash == fileHash
      | none => false
    let backupInfo : BackupRecord :=
      { id := backupId
        originalFileName := fileName
        backupFileName := backupFileName
        timestamp := timestamp
        size := sourceSize
        hash := fileHash
        originalPath := sourceFilePath
        screenshot := none }
    let cleaned := cleanupOldBackups maxBackups (st.ledger ++ [backupInfo]) files1
    let finalFiles :=
      if isDuplicate then cleaned.2.erase backupFileName else cleaned.2
    (some backupInfo, { ledger := cleaned.1, files := finalFiles })

/-- The three states in which `BackupManager.getMetadata` can find
`metadata.json`: missing, present but unreadable or unparseable, or present
with a parseable `backups` array. -/
inductive LedgerFile where
  | absent
  | corrupt
  | valid (backups : List BackupRecord)
deriving DecidableEq, Repr

/-- `BackupManager.getMetadata()`: a missing file yields the empty ledger,
and a read or parse exception is caught and also yields the empty ledger. -/
def getMetadata : LedgerFile → List BackupRecord
  | LedgerFile.absent => []
  | LedgerFile.corrupt => []
  | LedgerFile.valid backups => backups

/-- `BackupManager.getBackupList()`: the ledger sorted newest first. -/
def getBackupList (lf : LedgerFile) : List BackupRecord :=
  List.insertionSort newerFirst (getMetadata lf)

/-- The filesystem fragment `restoreBackup` touches: path to file content. -/
def Fs : Type := String → Option String

/-- Point update of the path-to-content map. -/
def fsUpdate (fs : Fs) (p : String) (v : Option String) : Fs :=
  fun q => if q = p then v else fs q

/-- `BackupManager.restoreBackup(backupId, targetPath)`.

`copyToTargetFails = true` models the copy of the archive over the target
throwing part way, leaving `partialContent` at the target; the `catch` then
copies the temporary sibling back over the target, removes the temporary,
and rethrows, so the outer `try` returns `false`.  When the target does not
exist beforehand the archive is copied directly (after creating the parent
directory) and no temporary is made. -/
def restoreBackup (backupPath : String) (ledger : List BackupRecord)
    (backupId targetPath : String) (fs : Fs)
    (copyToTargetFails : Bool) (partialContent : Option String) :
    Bool × Fs :=
  match ledger.find? (fun b => b.id == backupId) with
  | none => (false, fs)
  | some backup =>
    let backupFilePath := backupPath ++ "/" ++ backup.backupFileName
    match fs backupFilePath with
    | none => (false, fs)
    | some archived =>
      match fs targetPath with
      | some original =>
        let tempBackupPath := targetPath ++ ".temp_backup"
        let fs1 := fsUpdate fs tempBackupPath (some original)
        if copyToTargetFails then
          let fs2 := fsUpdate fs1 targetPath partialContent
          let fs3 := fsUpdate fs2 targetPath (some original)
          let fs4 := fsUpdate fs3 tempBackupPath none
          (false, fs4)
        else
          let fs2 := fsUpdate fs1 targetPath (some archived)
          let fs3 := fsUpdate fs2 tempBackupPath none
          (true, fs3)
      | none => (true, fsUpdate fs targetPath (some archived))

/-- The lifecycle events a `SaveMonitor` emits that the claims mention. -/
inductive MEvent where
  | errorSignal
  | backupCreated (id : String)
  | monitoringStopped
deriving DecidableEq, Repr

/-- The in-memory session state of a `SaveMonitor`: the watched path, the
digest of the last observed content (`null` before the first computation),
the running flag, and whether the chokidar watcher, the poll interval and
the debounce timer currently hold a live handle. -/
structure MonitorState where
  saveFilePath : String
  lastHash : Option String
  isMonitoring : Bool
  watcherActive : Bool
  checkIntervalActive : Bool
  debounceActive : Bool
deriving DecidableEq, Repr

/-- `SaveMonitor.createBackupIfNeeded()`.  `fs.statSync` throws when the
watched file is missing, which the `catch` turns into an `error` event and a
`false` return.  A size below one byte is skipped with a plain `false`
return and no event.  Otherwise `BackupManager.createBackup` runs; a
non-null result emits `backup-created` and returns `true`, a `null` result
returns `false` without an event. -/
def createBackupIfNeeded (maxBackups : Nat) (store : StoreState)
    (sourceFilePath : String) (sourceExists : Bool) (sourceSize : Nat)
    (fileHash : String) (backupId : String) (timestamp : Nat)
    (copyFails : Bool) : Bool × StoreState × List MEvent :=
  if sourceExists = false then (false, store, [MEvent.errorSignal])
  else if sourceSize < 1 then (false, store, [])
  else
    match createBackup maxBackups store sourceFilePath sourceExists sourceSize
        fileHash backupId timestamp copyFails with
    | (some info, store1) => (true, store1, [MEvent.backupCreated info.id])
    | (none, store1) => (false, store1, [])

/-- `SaveMonitor.forceBackup()`: refuses with `false` when not monitoring;
otherwise it runs `createBackupIfNeeded` and returns `true` whether or not
that reported a backup, because an attempt was made. -/
def forceBackup (maxBackups : Nat) (store : StoreState) (mon : MonitorState)
    (sourceExists : Bool) (sourceSize : Nat) (fileHash : String)
    (backupId : String) (timestamp : Nat) (copyFails : Bool) :
    Bool × StoreState × List MEvent :=
  if mon.isMonitoring = false then (false, store, [])
  else
    let r := createBackupIfNeeded maxBackups store mon.saveFilePath
      sourceExists sourceSize fileHash backupId timestamp copyFails
    (true, r.2.1, r.2.2)

/-- `SaveMonitor.checkFileChanges()`.  A missing watched file emits `error`
and returns.  `currentHash` is the fresh digest of the watched file; when it
differs from `lastHash` the code first assigns `this.lastHash = currentHash`
and only then calls `createBackupIfNeeded` (whose success or failure is
merely logged).  An unchanged digest changes nothing. -/
def checkFileChanges (maxBackups : Nat) (store : StoreState)
    (mon : MonitorState) (fileExists : Bool) (currentHash : String)
    (sourceSize : Nat) (backupId : String) (timestamp : Nat)
    (copyFails : Bool) : MonitorState × StoreState × List MEvent :=
  if fileExists = false then (mon, store, [MEvent.errorSignal])
  else if some currentHash ≠ mon.lastHash then
    let mon1 := { mon with lastHash := some currentHash }
    let r := createBackupIfNeeded maxBackups store mon.saveFilePath true
      sourceSize currentHash backupId timestamp copyFails
    (mon1, r.2.1, r.2.2)
  else (mon, store, [])

/-- `SaveMonitor.stop()`: returns `false` at once when not monitoring;
otherwise closes and drops the watcher, clears the poll interval and the
debounce timer, clears the running flag, and emits `monitoring-stopped`. -/
def stop (mon : MonitorState) : MonitorState × Bool × List MEvent :=
  if mon.isMonitoring = false then (mon, false, [])
  else
    ({ mon with
        watcherActive := false
        checkIntervalActive := false
        debounceActive := false
        isMonitoring := false },
      true, [MEvent.monitoringStopped])

/-! ### Helper lemmas about eviction -/

/-- Folding `Finset.erase` of each record file name over `l` keeps exactly
the files that were present and are named by no record of `l`. -/
theorem mem_foldl_erase (l : List BackupRecord) (fs : Finset String) (x : String) :
    x ∈ l.foldl (fun s b => s.erase b.backupFileName) fs ↔
      x ∈ fs ∧ ∀ b ∈ l, x ≠ b.backupFileName := by
  induction l generalizing fs with
  | nil => simp
  | cons b l ih =>
    simp only [List.foldl_cons, ih, Finset.mem_erase, List.mem_cons]
    constructor
    · rintro ⟨⟨hne, hmem⟩, hall⟩
      exact ⟨hmem, fun c hc => hc.elim (fun e => e ▸ hne) (hall c)⟩
    · rintro ⟨hmem, hall⟩
      exact ⟨⟨hall b (Or.inl rfl), hmem⟩, fun c hc => hall c (Or.inr hc)⟩

/-- Eviction never grows the ledger beyond `maxBackups`. -/
theorem cleanup_ledger_le (maxBackups : Nat) (backups : List BackupRecord)
    (files : Finset String) :
    (cleanupOldBackups maxBackups backups files).1.length ≤ maxBackups := by
  by_cases h : backups.length ≤ maxBackups
  · simp [cleanupOldBackups, h]
  · have h1 : (cleanupOldBackups maxBackups backups files).1 =
        (List.insertionSort newerFirst backups).take maxBackups := by
      simp [cleanupOldBackups, h]
    rw [h1, List.length_take]
    exact Nat.min_le_left _ _

/-- Eviction only ever removes files. -/
theorem cleanup_files_subset (maxBackups : Nat) (backups : List BackupRecord)
    (files : Finset String) :
    (cleanupOldBackups maxBackups backups files).2 ⊆ files := by
  by_cases h : backups.length ≤ maxBackups
  · simp [cleanupOldBackups, h]
  · intro x hx
    have hx2 : x ∈ ((List.insertionSort newerFirst backups).drop
        maxBackups).foldl (fun fs b => fs.erase b.backupFileName) files := by
      simpa [cleanupOldBackups, h] using hx
    exact ((mem_foldl_erase _ _ _).mp hx2).1

/-! ### C1: retention bound of eviction -/

/-- **C1.**  `BackupManager.cleanupOldBackups` is a no-op (ledger and files
untouched) when the ledger holds at most `maxBackups` records; otherwise it
retains exactly `maxBackups` records that together with the dropped ones
permute the original ledger, every retained timestamp is at least every
evicted timestamp, the archive file of each evicted record is deleted and no
file is added; in all cases the resulting ledger holds at most `maxBackups`
records. -/
theorem cleanupOldBackups_spec (maxBackups : Nat) (backups : List BackupRecord)
    (files : Finset String) :
    (backups.length ≤ maxBackups →
      cleanupOldBackups maxBackups backups files = (backups, files)) ∧
    (cleanupOldBackups maxBackups backups files).1.length ≤ maxBackups ∧
    (maxBackups < backups.length →
      ∃ dropped : List BackupRecord,
        ((cleanupOldBackups maxBackups backups files).1 ++ dropped).Perm backups ∧
        (cleanupOldBackups maxBackups backups files).1.length = maxBackups ∧
        (∀ k ∈ (cleanupOldBackups maxBackups backups files).1,
          ∀ d ∈ dropped, d.timestamp ≤ k.timestamp) ∧
        (∀ d ∈ dropped,
          d.backupFileName ∉ (cleanupOldBackups maxBackups backups files).2) ∧
        (cleanupOldBackups maxBackups backups files).2 ⊆ files) := by
  refine ⟨fun h => by simp [cleanupOldBackups, h], cleanup_ledger_le _ _ _,
    fun h => ?_⟩
  have hnot : ¬ backups.length ≤ maxBackups := by omega
  have h1 : (cleanupOldBackups maxBackups backups files).1 =
      (List.insertionSort newerFirst backups).take maxBackups := by
    simp [cleanupOldBackups, hnot]
  have h2 : (cleanupOldBackups maxBackups backups files).2 =
      ((List.insertionSort newerFirst backups).drop maxBackups).foldl
        (fun fs b => fs.erase b.backupFileName) files := by
    simp [cleanupOldBackups, hnot]
  refine ⟨(List.insertionSort newerFirst backups).drop maxBackups,
    ?_, ?_, ?_, ?_, cleanup_files_subset _ _ _⟩
  · rw [h1, List.take_append_drop]
    exact List.perm_insertionSort _ _
  · rw [h1, List.length_take, List.length_insertionSort]
    omega
  · have hp : List.Pairwise newerFirst
        ((List.insertionSort newerFirst backups).take maxBackups ++
          (List.insertionSort newerFirst backups).drop maxBackups) := by
      rw [List.take_append_drop]
      exact List.sorted_insertionSort newerFirst backups
    intro k hk d hd
    rw [h1] at hk
    exact (List.pairwise_append.mp hp).2.2 k hk d hd
  · intro d hd hmem
    rw [h2] at hmem
    exact ((mem_foldl_erase _ _ _).mp hmem).2 d hd rfl

/-- Example records used by the concrete witnesses below. -/
def recA : BackupRecord :=
  ⟨"idA", "s.sav", "idA_s.sav", 5, 4, "hA", "/g/s.sav", none⟩

def recB : BackupRecord :=
  ⟨"idB", "s.sav", "idB_s.sav", 9, 4, "hB", "/g/s.sav", none⟩

def recC : BackupRecord :=
  ⟨"idC", "s.sav", "idC_s.sav", 2, 4, "hC", "/g/s.sav", none⟩

/-- Witness for C1: a two-record ledger under a ceiling of three is left
untouched, and a three-record ledger under a ceiling of one is cut to one
record. -/
theorem cleanupOldBackups_spec_witness :
    cleanupOldBackups 3 [recA, recB] {"idA_s.sav", "idB_s.sav"} =
      ([recA, recB], {"idA_s.sav", "idB_s.sav"}) ∧
    (cleanupOldBackups 1 [recA, recB, recC]
      {"idA_s.sav", "idB_s.sav", "idC_s.sav"}).1.length = 1 := by
  constructor
  · exact (cleanupOldBackups_spec 3 [recA, recB] _).1 (by decide)
  · obtain ⟨dropped, -, hlen, -, -, -⟩ :=
      (cleanupOldBackups_spec 1 [recA, recB, recC]
        {"idA_s.sav", "idB_s.sav", "idC_s.sav"}).2.2 (by decide)
    exact hlen

/-! ### C10: the retention bound is an invariant of every successful create -/

/-- **C10.**  Whenever `createBackup` returns a record (not `null`), the
ledger it persisted holds at most `maxBackups` records, because
`cleanupOldBackups` runs inside `createBackup` after the push and before the
write. -/
theorem createBackup_retention (maxBackups : Nat) (st : StoreState)
    (sourceFilePath : String) (sourceExists : Bool) (sourceSize : Nat)
    (fileHash backupId : String) (timestamp : Nat) (copyFails : Bool)
    (hsome : (createBackup maxBackups st sourceFilePath sourceExists sourceSize
        fileHash backupId timestamp copyFails).1.isSome = true) :
    (createBackup maxBackups st sourceFilePath sourceExists sourceSize
        fileHash backupId timestamp copyFails).2.ledger.length ≤ maxBackups := by
  by_cases h1 : sourceExists = false
  · simp [createBackup, h1] at hsome
  · by_cases h2 : copyFails = true
    · simp [createBackup, h1, h2] at hsome
    · simp only [createBackup, h1, h2, if_false]
      exact cleanup_ledger_le _ _ _

/-- Witness for C10: creating over a full one-slot ledger still ends with a
one-record ledger. -/
theorem createBackup_retention_witness :
    (createBackup 1 ⟨[recA], {"idA_s.sav"}⟩ "/g/s.sav" true 4 "hB" "idB" 9
      false).2.ledger.length ≤ 1 :=
  createBackup_retention 1 ⟨[recA], {"idA_s.sav"}⟩ "/g/s.sav" true 4 "hB"
    "idB" 9 false (by decide)

/-- Eviction leaves a ledger within its ceiling untouched. -/
theorem cleanup_noop (maxBackups : Nat) (backups : List BackupRecord)
    (files : Finset String) (h : backups.length ≤ maxBackups) :
    cleanupOldBackups maxBackups backups files = (backups, files) := by
  simp [cleanupOldBackups, h]

/-! ### C3: duplicate captures -/

/-- A record whose hash will match a subsequent capture. -/
def dupRec : BackupRecord :=
  ⟨"idA", "s.sav", "idA_s.sav", 0, 4, "h", "/g/s.sav", none⟩

/-- Counterexample to C3 as stated: with `maxBackups = 1` and a one-record
ledger, a duplicate capture (digest equal to the hash of the most recently
appended record) leaves the ledger at one record — the eviction that runs
inside `createBackup` removes the old record — so the ledger does not grow
by one record. -/
theorem createBackup_duplicate_cex :
    [dupRec].getLast?.map (fun b => b.hash) = some "h" ∧
    (createBackup 1 ⟨[dupRec], {"idA_s.sav"}⟩ "/g/s.sav" true 4 "h" "idB" 1
      false).2.ledger.length = 1 ∧
    ¬ (createBackup 1 ⟨[dupRec], {"idA_s.sav"}⟩ "/g/s.sav" true 4 "h" "idB" 1
      false).2.ledger.length = [dupRec].length + 1 := by
  decide

/-- **C3 (amended).**  A capture whose digest equals the hash of the last
record of the stored ledger is a duplicate: `createBackup` still returns a
record, deletes the archive file it just wrote, and the count of live
archive files does not increase; the ledger grows by exactly one record when
it held fewer than `maxBackups` records (at capacity the eviction running
inside `createBackup` keeps it at `maxBackups` instead). -/
theorem createBackup_duplicate (maxBackups : Nat) (st : StoreState)
    (sourceFilePath : String) (sourceSize : Nat) (fileHash backupId : String)
    (timestamp : Nat) (lastBackup : BackupRecord)
    (hlast : st.ledger.getLast? = some lastBackup)
    (hdup : lastBackup.hash = fileHash) :
    (createBackup maxBackups st sourceFilePath true sourceSize fileHash
        backupId timestamp false).1.isSome = true ∧
    backupId ++ "_" ++ baseName sourceFilePath ∉
      (createBackup maxBackups st sourceFilePath true sourceSize fileHash
        backupId timestamp false).2.files ∧
    (createBackup maxBackups st sourceFilePath true sourceSize fileHash
        backupId timestamp false).2.files.card ≤ st.files.card ∧
    (st.ledger.length < maxBackups →
      (createBackup maxBackups st sourceFilePath true sourceSize fileHash
        backupId timestamp false).2.ledger.length = st.ledger.length + 1) := by
  have heq : createBackup maxBackups st sourceFilePath true sourceSize
      fileHash backupId timestamp false =
      (some
        { id := backupId
          originalFileName := baseName sourceFilePath
          backupFileName := backupId ++ "_" ++ baseName sourceFilePath
          timestamp := timestamp
          size := sourceSize
          hash := fileHash
          originalPath := sourceFilePath
          screenshot := none },
        { ledger := (cleanupOldBackups maxBackups
            (st.ledger ++
              [{ id := backupId
                 originalFileName := baseName sourceFilePath
                 backupFileName := backupId ++ "_" ++ baseName sourceFilePath
                 timestamp := timestamp
                 size := sourceSize
                 hash := fileHash
                 originalPath := sourceFilePath
                 screenshot := none }])
            (insert (backupId ++ "_" ++ baseName sourceFilePath) st.files)).1
          files := (cleanupOldBackups maxBackups
            (st.ledger ++
              [{ id := backupId
                 originalFileName := baseName sourceFilePath
                 backupFileName := backupId ++ "_" ++ baseName sourceFilePath
                 timestamp := timestamp
                 size := sourceSize
                 hash := fileHash
                 originalPath := sourceFilePath
                 screenshot := none }])
            (insert (backupId ++ "_" ++ baseName sourceFilePath)
              st.files)).2.erase
            (backupId ++ "_" ++ baseName sourceFilePath) }) := by
    simp [createBackup, hlast, hdup]
  refine ⟨by rw [heq]; rfl, by rw [heq]; exact Finset.not_mem_erase _ _,
    ?_, ?_⟩
  · rw [heq]
    refine Finset.card_le_card fun x hx => ?_
    have hx1 := Finset.mem_of_mem_erase hx
    have hxne := Finset.ne_of_mem_erase hx
    have hx2 := cleanup_files_subset _ _ _ hx1
    rcases Finset.mem_insert.mp hx2 with he | hm
    · exact absurd he hxne
    · exact hm
  · intro hlt
    rw [heq]
    have hle : ∀ info : BackupRecord,
        (st.ledger ++ [info]).length ≤ maxBackups := by
      intro info
      simp only [List.length_append, List.length_cons, List.length_nil]
      omega
    simp [cleanup_noop _ _ _ (hle _)]

/-- Witness for C3 (amended): a duplicate capture below capacity grows the
ledger to two records while its fresh archive file is deleted again. -/
theorem createBackup_duplicate_witness :
    (createBackup 5 ⟨[dupRec], {"idA_s.sav"}⟩ "/g/s.sav" true 4 "h" "idB" 1
      false).2.ledger.length = 2 ∧
    "idB_s.sav" ∉ (createBackup 5 ⟨[dupRec], {"idA_s.sav"}⟩ "/g/s.sav" true 4
      "h" "idB" 1 false).2.files := by
  have h := createBackup_duplicate 5 ⟨[dupRec], {"idA_s.sav"}⟩ "/g/s.sav" 4
    "h" "idB" 1 dupRec (by decide) (by decide)
  have hb : "idB" ++ "_" ++ baseName "/g/s.sav" = "idB_s.sav" := by decide
  refine ⟨?_, hb ▸ h.2.1⟩
  have h2 := h.2.2.2 (by decide)
  simpa using h2

/-! ### C5: zero-byte sources -/

/-- Counterexample to C5 as stated: `BackupManager.createBackup` performs no
size check, so called on an existing zero-byte source it writes an archive
file and appends a ledger record instead of rejecting the capture. -/
theorem createBackup_zeroByte_cex :
    (createBackup 50 ⟨[], ∅⟩ "/g/s.sav" true 0 "hEmpty" "idE" 3
      false).1.isSome = true ∧
    (createBackup 50 ⟨[], ∅⟩ "/g/s.sav" true 0 "hEmpty" "idE" 3
      false).2.ledger.length = 1 ∧
    "idE_s.sav" ∈ (createBackup 50 ⟨[], ∅⟩ "/g/s.sav" true 0 "hEmpty" "idE" 3
      false).2.files := by
  decide

/-- **C5 (amended).**  The zero-byte rejection lives in the monitor, not in
the store: `SaveMonitor.createBackupIfNeeded` on an existing source of size
zero returns `false` without invoking the store — the store state is
untouched (no archive file, no ledger record) and no event is emitted, so
the skip is a no-op, not an error. -/
theorem createBackupIfNeeded_zero_noop (maxBackups : Nat) (store : StoreState)
    (sourceFilePath fileHash backupId : String) (timestamp : Nat)
    (copyFails : Bool) :
    createBackupIfNeeded maxBackups store sourceFilePath true 0 fileHash
      backupId timestamp copyFails = (false, store, []) := by
  simp [createBackupIfNeeded]

/-! ### C2: the last digest after a failed backup -/

/-- A running monitor that has last observed content with digest `hOld`. -/
def monA : MonitorState := ⟨"/g/s.sav", some "hOld", true, true, true, false⟩

/-- Counterexample to C2 as stated: a change signal finds digest `hNew`
(different from the remembered `hOld`), the backup creation fails (`fs.copy`
throws, so the store is untouched and no `backup-created` event is emitted),
and yet `lastHash` has been updated to `hNew`. -/
theorem checkFileChanges_failure_cex :
    monA.lastHash = some "hOld" ∧
    (checkFileChanges 50 ⟨[], ∅⟩ monA true "hNew" 4 "idN" 8 true).2.1 =
      ⟨[], ∅⟩ ∧
    (checkFileChanges 50 ⟨[], ∅⟩ monA true "hNew" 4 "idN" 8 true).2.2 = [] ∧
    (checkFileChanges 50 ⟨[], ∅⟩ monA true "hNew" 4 "idN" 8 true).1.lastHash =
      some "hNew" := by
  decide

/-- **C2 (amended).**  On a change signal whose digest differs from
`lastHash` the monitor assigns the new digest to `lastHash` before the
backup attempt, and the assignment stands whether or not the attempt
succeeds, so the next signal compares against the digest last observed, not
against the digest of the last successfully captured content. -/
theorem checkFileChanges_updates_lastHash (maxBackups : Nat)
    (store : StoreState) (mon : MonitorState) (currentHash : String)
    (sourceSize : Nat) (backupId : String) (timestamp : Nat)
    (copyFails : Bool) (hdiff : mon.lastHash ≠ some currentHash) :
    (checkFileChanges maxBackups store mon true currentHash sourceSize
        backupId timestamp copyFails).1.lastHash = some currentHash := by
  have h1 : some currentHash ≠ mon.lastHash := fun e => hdiff e.symm
  simp [checkFileChanges, h1]

/-- Witness for C2 (amended): the failed-backup scenario ends with
`lastHash` holding the newly observed digest. -/
theorem checkFileChanges_updates_lastHash_witness :
    (checkFileChanges 7 ⟨[dupRec], {"idA_s.sav"}⟩ monA true "hFresh" 4 "idN"
      11 true).1.lastHash = some "hFresh" :=
  checkFileChanges_updates_lastHash 7 ⟨[dupRec], {"idA_s.sav"}⟩ monA "hFresh"
    4 "idN" 11 true (by decide)

/-! ### C6: forced backups ignore the digest comparison -/

/-- **C6.**  For a running session and a non-empty source,
`SaveMonitor.forceBackup` hands the capture to `BackupManager.createBackup`
and reports `true` — the right-hand side mentions neither `mon.lastHash` nor
any comparison of `fileHash` with the ledger, so the result is the same for
every remembered digest and stays `true` even when the capture is a
duplicate of the previous backup. -/
theorem forceBackup_unconditional (maxBackups : Nat) (store : StoreState)
    (mon : MonitorState) (sourceSize : Nat) (fileHash backupId : String)
    (timestamp : Nat) (hrun : mon.isMonitoring = true) (hsz : 1 ≤ sourceSize) :
    forceBackup maxBackups store mon true sourceSize fileHash backupId
        timestamp false =
      (true,
        (createBackup maxBackups store mon.saveFilePath true sourceSize
          fileHash backupId timestamp false).2,
        [MEvent.backupCreated backupId]) := by
  have hn : ¬ sourceSize < 1 := by omega
  simp [forceBackup, hrun, createBackupIfNeeded, hn, createBackup]

/-- A running monitor whose remembered digest equals the hash of the last
ledger record, the situation in which a change-driven capture would be
skipped. -/
def monRun : MonitorState := ⟨"/g/s.sav", some "h", true, true, true, true⟩

/-- Witness for C6: forcing a backup of content identical to the last
backup (digest `h` on both sides) still invokes the store and returns
`true`. -/
theorem forceBackup_unconditional_witness :
    forceBackup 5 ⟨[dupRec], {"idA_s.sav"}⟩ monRun true 4 "h" "idB" 7 false =
      (true,
        (createBackup 5 ⟨[dupRec], {"idA_s.sav"}⟩ "/g/s.sav" true 4 "h" "idB"
          7 false).2,
        [MEvent.backupCreated "idB"]) := by
  have h := forceBackup_unconditional 5 ⟨[dupRec], {"idA_s.sav"}⟩ monRun 4 "h"
    "idB" 7 (by decide) (by decide)
  simpa [monRun] using h

/-! ### C8: a missing or corrupt ledger file reads as empty -/

/-- **C8.**  Reading `metadata.json` when it is absent or unparseable
yields the empty ledger rather than an error: `getMetadata` returns `[]`,
`getBackupList` returns `[]`, and `createBackup` run over the recovered
empty ledger still succeeds for every input. -/
theorem getMetadata_recovers (lf : LedgerFile)
    (h : lf = LedgerFile.absent ∨ lf = LedgerFile.corrupt) :
    getMetadata lf = [] ∧ getBackupList lf = [] ∧
    ∀ (maxBackups : Nat) (files : Finset String) (sourceFilePath : String)
      (sourceSize : Nat) (fileHash backupId : String) (timestamp : Nat),
      (createBackup maxBackups ⟨getMetadata lf, files⟩ sourceFilePath true
          sourceSize fileHash backupId timestamp false).1.isSome = true := by
  have hm : getMetadata lf = [] := by rcases h with h | h <;> subst h <;> rfl
  refine ⟨hm, ?_, ?_⟩
  · rw [getBackupList, hm]
    rfl
  · intro maxBackups files sourceFilePath sourceSize fileHash backupId ts
    simp [createBackup]

/-- Witness for C8 at the two recovered ledger states. -/
theorem getMetadata_recovers_witness :
    getMetadata LedgerFile.corrupt = [] ∧
    getBackupList LedgerFile.absent = [] ∧
    (createBackup 3 ⟨getMetadata LedgerFile.corrupt, ∅⟩ "/g/s.sav" true 4
      "hA" "idA" 2 false).1.isSome = true :=
  ⟨(getMetadata_recovers LedgerFile.corrupt (Or.inr rfl)).1,
    (getMetadata_recovers LedgerFile.absent (Or.inl rfl)).2.1,
    (getMetadata_recovers LedgerFile.corrupt (Or.inr rfl)).2.2 3 ∅ "/g/s.sav"
      4 "hA" "idA" 2⟩

/-! ### C9: stop is idempotent -/

/-- **C9.**  `SaveMonitor.stop` on a session that is not running changes
nothing and returns `false`; a second `stop` always leaves the state of a
first `stop` unchanged; and stopping a running session clears the running
flag, the watcher handle, the poll interval and the debounce timer. -/
theorem stop_idempotent (mon : MonitorState) :
    (mon.isMonitoring = false → stop mon = (mon, false, [])) ∧
    (stop (stop mon).1).1 = (stop mon).1 ∧
    (mon.isMonitoring = true →
      (stop mon).1.isMonitoring = false ∧
      (stop mon).1.watcherActive = false ∧
      (stop mon).1.checkIntervalActive = false ∧
      (stop mon).1.debounceActive = false) := by
  cases hm : mon.isMonitoring <;> simp [stop, hm]

/-- A monitor with no live session. -/
def monIdle : MonitorState := ⟨"/g/s.sav", none, false, false, false, false⟩

/-- Witness for C9 at a stopped and at a running session. -/
theorem stop_idempotent_witness :
    stop monIdle = (monIdle, false, []) ∧
    (stop (stop monRun).1).1 = (stop monRun).1 ∧
    (stop monRun).1.isMonitoring = false :=
  ⟨(stop_idempotent monIdle).1 (by decide),
    (stop_idempotent monRun).2.1,
    ((stop_idempotent monRun).2.2 (by decide)).1⟩

/-! ### C4: restore rolls back on copy failure -/

/-- Appending the temporary-sibling suffix changes a path. -/
theorem self_ne_append_temp (s : String) : s ≠ s ++ ".temp_backup" := by
  intro h
  have hlen := congrArg String.length h
  rw [String.length_append] at hlen
  have h12 : (".temp_backup" : String).length = 12 := rfl
  omega

/-- **C4.**  Restoring an existing record with a live archive file onto an
existing target, when the copy of the archive over the target fails part way
(leaving arbitrary partial content), ends with `restoreBackup` returning
`false`, the target holding exactly its content from before the call, and
the temporary sibling removed. -/
theorem restoreBackup_rollback (backupPath : String)
    (ledger : List BackupRecord) (backupId targetPath : String) (fs : Fs)
    (partialContent : Option String) (backup : BackupRecord)
    (hfind : ledger.find? (fun b => b.id == backupId) = some backup)
    (harchive : (fs (backupPath ++ "/" ++ backup.backupFileName)).isSome =
      true)
    (htarget : (fs targetPath).isSome = true) :
    (restoreBackup backupPath ledger backupId targetPath fs true
      partialContent).1 = false ∧
    (restoreBackup backupPath ledger backupId targetPath fs true
      partialContent).2 targetPath = fs targetPath ∧
    (restoreBackup backupPath ledger backupId targetPath fs true
      partialContent).2 (targetPath ++ ".temp_backup") = none := by
  obtain ⟨archived, ha⟩ := Option.isSome_iff_exists.mp harchive
  obtain ⟨original, ho⟩ := Option.isSome_iff_exists.mp htarget
  have hne := self_ne_append_temp targetPath
  have hne2 : targetPath ++ ".temp_backup" ≠ targetPath := fun e =>
    hne e.symm
  simp [restoreBackup, hfind, ha, ho, fsUpdate, hne, hne2]

/-- A filesystem holding the archive file of `recA` and a target file. -/
def fsW : Fs := fun p =>
  if p = "bk/idA_s.sav" then some "ARC"
  else if p = "t.sav" then some "ORIG" else none

/-- Witness for C4: the failed restore leaves `t.sav` with its original
content and no temporary sibling behind. -/
theorem restoreBackup_rollback_witness :
    (restoreBackup "bk" [recA] "idA" "t.sav" fsW true (some "JUNK")).1 =
      false ∧
    (restoreBackup "bk" [recA] "idA" "t.sav" fsW true (some "JUNK")).2
      "t.sav" = some "ORIG" ∧
    (restoreBackup "bk" [recA] "idA" "t.sav" fsW true (some "JUNK")).2
      ("t.sav" ++ ".temp_backup") = none := by
  have h := restoreBackup_rollback "bk" [recA] "idA" "t.sav" fsW (some "JUNK")
    recA (by decide) (by decide) (by decide)
  exact ⟨h.1, h.2.1.trans (by decide), h.2.2⟩

end GameSave
